import Mathlib

/-!
Verification development for the IconForge raster core
(src/IconForge/core/stroke.py, icon_audit.py, image_processor.py).

Images are shallowly embedded: a RasterImage is a width, a height, a PIL
mode tag and a total pixel function returning straight (non-premultiplied)
RGBA byte values.  Pure Pillow/numpy primitives that the repository calls
(channel split/merge, rank filters, ImageChops.subtract, point lookup,
alpha_composite, grayscale conversion, aggregate statistics) are modelled
as Lean functions on this representation; the exact resampling kernels
(bicubic/Lanczos resize, Gaussian blur, UnsharpMask) and the square root
used by the float statistics are external library internals that no claim
constrains, so they are taken as explicit function parameters.
-/

/-- One RGBA pixel; channel values are bytes (0-255) on every image the
    program builds. -/
structure RGBA where
  r : Nat
  g : Nat
  b : Nat
  a : Nat
deriving DecidableEq, Repr, BEq

/-- PIL image mode tag: the code only branches on whether the mode is RGBA;
    grayscale channel images are mode L; every other mode is collapsed. -/
inductive PilMode
  | rgba
  | l
  | other
deriving DecidableEq, Repr

/-- A raster image: dimensions plus a total pixel map (column x, row y). -/
structure Img where
  width : Nat
  height : Nat
  mode : PilMode
  pix : Nat → Nat → RGBA

/-- A single-channel (mode L) image, as produced by Image.split. -/
structure Chan where
  width : Nat
  height : Nat
  pix : Nat → Nat → Nat

/-- Clamp an integer coordinate into [0, n-1] (edge replication, the border
    rule of Pillow rank filters since 9.1, whose expand step repeats the
    edge pixel). -/
def clampIdx (v : Int) (n : Nat) : Nat :=
  (min (max v 0) ((n : Int) - 1)).toNat

/-- Red channel of an RGBA image (image.split()[0]). -/
def chanOfR (g : Img) : Chan := ⟨g.width, g.height, fun x y => (g.pix x y).r⟩

/-- Green channel of an RGBA image (image.split()[1]). -/
def chanOfG (g : Img) : Chan := ⟨g.width, g.height, fun x y => (g.pix x y).g⟩

/-- Blue channel of an RGBA image (image.split()[2]). -/
def chanOfB (g : Img) : Chan := ⟨g.width, g.height, fun x y => (g.pix x y).b⟩

/-- Alpha channel of an RGBA image (image.split()[3]). -/
def chanOfA (g : Img) : Chan := ⟨g.width, g.height, fun x y => (g.pix x y).a⟩

/-- Values of the (2r+1)ˣ(2r+1) square neighbourhood of (x, y), with
    coordinates clamped to the image (the structuring element shared by
    MaxFilter and MinFilter). -/
def neighVals (c : Chan) (r : Nat) (x y : Nat) : List Nat :=
  (List.range (2 * r + 1)).flatMap fun dy =>
    (List.range (2 * r + 1)).map fun dx =>
      c.pix (clampIdx ((x : Int) + dx - r) c.width) (clampIdx ((y : Int) + dy - r) c.height)

/-- Maximum of a nonempty value list (empty list defaults to 0). -/
def listMax : List Nat → Nat
  | [] => 0
  | v :: vs => vs.foldl max v

/-- Minimum of a nonempty value list (empty list defaults to 0). -/
def listMin : List Nat → Nat
  | [] => 0
  | v :: vs => vs.foldl min v

/-- PIL ImageFilter.MaxFilter(2r+1): greyscale dilation by a square
    structuring element of radius r. -/
def maxFilterR (c : Chan) (r : Nat) : Chan :=
  ⟨c.width, c.height, fun x y => listMax (neighVals c r x y)⟩

/-- PIL ImageFilter.MinFilter(2r+1): greyscale erosion by a square
    structuring element of radius r. -/
def minFilterR (c : Chan) (r : Nat) : Chan :=
  ⟨c.width, c.height, fun x y => listMin (neighVals c r x y)⟩

/-- ImageChops.subtract(c1, c2) with default scale and offset: per-pixel
    difference clamped at 0 (Nat subtraction is exactly max(0, a-b)). -/
def chopsSubtract (c1 c2 : Chan) : Chan :=
  ⟨c1.width, c1.height, fun x y => c1.pix x y - c2.pix x y⟩

/-- Image.new('RGBA', (w, h), color): a constant-colored RGBA image. -/
def newRGBA (w h : Nat) (color : RGBA) : Img :=
  ⟨w, h, .rgba, fun _ _ => color⟩

/-- image.putalpha(mask): keep RGB, replace the alpha plane by the mask. -/
def putalpha (g : Img) (c : Chan) : Img :=
  ⟨g.width, g.height, .rgba, fun x y => { g.pix x y with a := c.pix x y }⟩

/-- Image.merge('RGBA', (r, g, b, a)). -/
def mergeRGBA (r g b a : Chan) : Img :=
  ⟨r.width, r.height, .rgba, fun x y => ⟨r.pix x y, g.pix x y, b.pix x y, a.pix x y⟩⟩

/-- channel.point(f): apply a lookup function to every channel byte. -/
def pointMap (f : Nat → Nat) (c : Chan) : Chan :=
  ⟨c.width, c.height, fun x y => f (c.pix x y)⟩

/-- Round a rational to the nearest natural number, halves up (byte
    quantisation of the exact Porter-Duff values). -/
def byteRound (q : ℚ) : Nat :=
  (Int.floor (q + 1/2)).toNat

/-- Porter-Duff source-over of one straight-alpha pixel over another,
    Pillow Image.alpha_composite semantics: a fully transparent source
    leaves the destination pixel untouched; otherwise the premultiplied
    blend is computed exactly and quantised back to bytes. -/
def srcOverPx (dst src : RGBA) : RGBA :=
  if src.a = 0 then dst
  else
    let outa255 : ℚ := (src.a : ℚ) * 255 + (dst.a : ℚ) * (255 - (src.a : ℚ))
    let blendC := fun (cs cd : Nat) =>
      byteRound (((cs : ℚ) * src.a * 255 + (cd : ℚ) * dst.a * (255 - (src.a : ℚ))) / outa255)
    ⟨blendC src.r dst.r, blendC src.g dst.g, blendC src.b dst.b, byteRound (outa255 / 255)⟩

/-- Image.alpha_composite(dst, src): src composited over dst, pixelwise;
    both arguments always have equal size at every call site. -/
def alphaCompositeImg (dst src : Img) : Img :=
  ⟨dst.width, dst.height, .rgba, fun x y => srcOverPx (dst.pix x y) (src.pix x y)⟩

/-- Stroke alignment ('outside' | 'center' | 'inside'); the data model's
    StrokeSpec restricts the alignment string to these three values. -/
inductive StrokeAlignment
  | outside
  | center
  | inside
deriving DecidableEq, Repr

/-- StrokeGenerator.apply_stroke (src/IconForge/core/stroke.py, lines 12-98).
    Translated line by line: a non-positive width or a non-RGBA input is a
    no-op; otherwise the alpha mask is dilated/eroded per alignment
    (MaxFilter/MinFilter with kernel 2*radius+1, the center radius being
    width // 2 clamped below by 1), the stroke mask is the clamped
    difference, a flat-color layer takes it as alpha, and the layer is
    composited behind the image for outside alignment and over it
    otherwise. -/
def applyStroke (image : Img) (color : RGBA) (width : Int) (alignment : StrokeAlignment) : Img :=
  if width ≤ 0 ∨ image.mode ≠ .rgba then image
  else
    let mask := chanOfA image
    let masks :=
      match alignment with
      | .outside => (maxFilterR mask width.toNat, mask)
      | .inside => (mask, minFilterR mask width.toNat)
      | .center =>
          let half_w := max 1 (width.toNat / 2)
          (maxFilterR mask half_w, minFilterR mask half_w)
    let stroke_mask := chopsSubtract masks.1 masks.2
    let stroke_layer := putalpha (newRGBA image.width image.height color) stroke_mask
    match alignment with
    | .outside => alphaCompositeImg stroke_layer image
    | _ => alphaCompositeImg image stroke_layer

/-- The levels curve of SuperPolisher.liquid_smooth (stroke.py, lines
    144-153): bytes below 100 drop to 0, bytes above 180 saturate to 255,
    and the 100-180 band maps linearly.  For every byte input in 100-180
    the Python expression int((x - 100) / 80 * 255) equals the exact
    floor (x - 100) * 255 / 80 (checked over the whole byte domain), so
    the float detour is modelled by Nat floor division. -/
def levels_curve (x : Nat) : Nat :=
  if x < 100 then 0
  else if 180 < x then 255
  else (x - 100) * 255 / 80

/-- SuperPolisher.liquid_smooth (stroke.py, lines 104-163), parametric in
    the two external resampling kernels: resizeF g w h models
    g.resize((w, h), BICUBIC/LANCZOS) and blurF g r models
    g.filter(GaussianBlur(r)).  Non-positive intensity or a non-RGBA input
    is a no-op; otherwise the image is upscaled 4x, blurred with radius
    2 + intensity * 8, the blurred alpha alone is passed through
    levels_curve, RGB is kept as blurred, and the merge is downscaled back
    to the input size. -/
def liquid_smooth (resizeF : Img → Nat → Nat → Img) (blurF : Img → ℚ → Img)
    (image : Img) (intensity : ℚ) : Img :=
  if intensity ≤ 0 ∨ image.mode ≠ .rgba then image
  else
    let w := image.width
    let h := image.height
    let factor := 4
    let supersampled := resizeF image (w * factor) (h * factor)
    let blur_radius : ℚ := 2 + intensity * 8
    let blurred := blurF supersampled blur_radius
    let a_sharp := pointMap levels_curve (chanOfA blurred)
    let polished_big := mergeRGBA (chanOfR blurred) (chanOfG blurred) (chanOfB blurred) a_sharp
    resizeF polished_big w h

/-- Severity levels of IconAuditor issues (icon_audit.py, lines 13-17). -/
inductive IssueSeverity
  | info
  | warning
  | error
  | pass
deriving DecidableEq, Repr

/-- One audit finding (icon_audit.py, lines 19-25). -/
structure AuditIssue where
  check_name : String
  severity : IssueSeverity
  message : String
  fix_available : Bool
  fix_action : String
deriving DecidableEq, Repr

/-- image.convert('RGBA') on a non-RGBA input: dimensions and RGB are kept;
    sources without an alpha plane (the modes this program feeds in) become
    fully opaque.  Inputs that are already RGBA are never passed through
    this function by the translated code. -/
def convertRGBA (g : Img) : Img :=
  ⟨g.width, g.height, .rgba, fun x y => { g.pix x y with a := 255 }⟩

/-- Row-major list of the alpha plane, the order in which numpy flattens
    np.array(image.split()[3]). -/
def alphaList (g : Img) : List Nat :=
  (List.range g.height).flatMap fun y =>
    (List.range g.width).map fun x => (g.pix x y).a

/-- np.min over a nonempty byte list (numpy raises on an empty array; all
    theorems below restrict to images with width > 0 and height > 0). -/
def npMin (l : List Nat) : Nat := listMin l

/-- np.max over a nonempty byte list. -/
def npMax (l : List Nat) : Nat := listMax l

/-- The test np.std(alpha) > 0: the float population standard deviation of
    a byte array is zero exactly when the array is constant, so the test is
    embedded as that exact condition. -/
def npStdPos (l : List Nat) : Bool :=
  match l with
  | [] => false
  | v :: vs => vs.any fun u => u ≠ v

/-- The aspect-ratio issue of audit_image (icon_audit.py, lines 42-51). -/
def aspectIssues (image : Img) : List AuditIssue :=
  if image.width ≠ image.height then
    [⟨"Aspect Ratio", .error,
      "Image is not square (" ++ toString image.width ++ "x" ++ toString image.height ++
        "). Icons must be square.", true, "crop_square"⟩]
  else [⟨"Aspect Ratio", .pass, "Image is square", false, ""⟩]

/-- The resolution issue of audit_image (icon_audit.py, lines 53-61): the
    source compares only the width against 512. -/
def resolutionIssues (image : Img) : List AuditIssue :=
  if image.width < 512 then
    [⟨"Resolution", .warning,
      "Resolution is low (" ++ toString image.width ++
        "px). Recommended: 1024px for best quality.", false, ""⟩]
  else [⟨"Resolution", .pass, "High resolution (" ++ toString image.width ++ "px)", false, ""⟩]

/-- The transparency / edge-quality section of audit_image (icon_audit.py,
    lines 63-99): one Transparency issue when the alpha plane is the
    constant 255, otherwise one Edge Quality issue when the alpha plane is
    non-constant, otherwise no issue at all.  The Python comparisons of the
    float ratio against the literals 0.01 and 0.2 are embedded as exact
    rational comparisons against 1/100 and 1/5: a ratio of pixel counts can
    never fall strictly between the rational constant and its nearest
    double, so the two are equivalent on every reachable input. -/
def transparencyIssues (image : Img) : List AuditIssue :=
  let alpha := alphaList image
  if npMin alpha = 255 then
    [⟨"Transparency", .info,
      "Image is fully opaque. Use Masking Options to remove background if this is a logo/icon.",
      false, ""⟩]
  else if npStdPos alpha then
    let intermediate_pixels := alpha.countP fun v => decide (0 < v ∧ v < 255)
    let total_edge_pixels := alpha.countP fun v => decide (0 < v)
    let smoothing : ℚ :=
      if 0 < total_edge_pixels then (intermediate_pixels : ℚ) / total_edge_pixels else 0
    if smoothing < 1/100 then
      [⟨"Edge Quality", .error, "Edges appear jagged/aliased (pixelated).", true,
        "smart_cleanup"⟩]
    else if 1/5 < smoothing then
      [⟨"Edge Quality", .warning, "Edges appear blurry/soft.", true, "sharpen"⟩]
    else [⟨"Edge Quality", .pass, "Edges look smooth and clean", false, ""⟩]
  else []

/-- The cleanliness issue of audit_image (icon_audit.py, lines 101-113). -/
def cleanlinessIssues (image : Img) : List AuditIssue :=
  let dirty_pixels := (alphaList image).countP fun v => decide (0 < v ∧ v < 10)
  if 10 < dirty_pixels then
    [⟨"Cleanliness", .warning,
      "Found " ++ toString dirty_pixels ++ " stray/dirty pixels.", true, "clean_debris"⟩]
  else [⟨"Cleanliness", .pass, "No dirty pixels detected", false, ""⟩]

/-- IconAuditor.audit_image (icon_audit.py, lines 30-115): ensure RGBA,
    then append the four check sections in source order. -/
def audit_image (image0 : Img) : List AuditIssue :=
  let image := if image0.mode ≠ .rgba then convertRGBA image0 else image0
  aspectIssues image ++ resolutionIssues image ++ transparencyIssues image ++
    cleanlinessIssues image

/-- The numeric metrics dict of IconAuditor.analyze_metrics; sharpness,
    contrast and brightness are the float scores modelled as rationals,
    palette_size is the distinct-color count. -/
structure Metrics where
  sharpness : ℚ
  contrast : ℚ
  brightness : ℚ
  palette_size : Nat
deriving DecidableEq, Repr

/-- The two exceptions analyze_metrics can raise: reading the local
    variable mask on the path where it was never assigned
    (UnboundLocalError), and calling np.gradient on an array with an axis
    shorter than 2 samples (ValueError). -/
inductive PyErr
  | unboundLocalMask
  | gradientShapeTooSmall
deriving DecidableEq, Repr

/-- image.convert('L') pixel value, Pillow ITU-R 601-2 integer formula
    (alpha is ignored by the RGB-to-L matrix). -/
def grayAt (g : Img) (x y : Nat) : Nat :=
  ((g.pix x y).r * 19595 + (g.pix x y).g * 38470 + (g.pix x y).b * 7471) / 65536

/-- Vertical component of np.gradient(gray): second-order central
    difference in the interior, one-sided difference at the first and last
    row; defined for height ≥ 2. -/
def gradDy (g : Img) (x y : Nat) : ℚ :=
  if y = 0 then (grayAt g x 1 : ℚ) - grayAt g x 0
  else if y = g.height - 1 then (grayAt g x (g.height - 1) : ℚ) - grayAt g x (g.height - 2)
  else ((grayAt g x (y + 1) : ℚ) - grayAt g x (y - 1)) / 2

/-- Horizontal component of np.gradient(gray); defined for width ≥ 2. -/
def gradDx (g : Img) (x y : Nat) : ℚ :=
  if x = 0 then (grayAt g 1 y : ℚ) - grayAt g 0 y
  else if x = g.width - 1 then (grayAt g (g.width - 1) y : ℚ) - grayAt g (g.width - 2) y
  else ((grayAt g (x + 1) y : ℚ) - grayAt g (x - 1) y) / 2

/-- np.sqrt(dx**2 + dy**2) at one pixel, parametric in the square root. -/
def gradMag (sqrtQ : ℚ → ℚ) (g : Img) (x y : Nat) : ℚ :=
  sqrtQ (gradDx g x y ^ 2 + gradDy g x y ^ 2)

/-- Row-major pixel coordinate list (x, y order inside the pair). -/
def coordList (w h : Nat) : List (Nat × Nat) :=
  (List.range h).flatMap fun y => (List.range w).map fun x => (x, y)

/-- Arithmetic mean of a rational list (0 on the empty list; only applied
    to nonempty lists by the code paths below). -/
def meanQ (l : List ℚ) : ℚ := l.sum / l.length

/-- Population variance of a rational list, the square of np.std. -/
def varQ (l : List ℚ) : ℚ :=
  (l.map fun v => (v - meanQ l) ^ 2).sum / l.length

/-- Python round(x, 1) (numpy half-even rounding at one decimal),
    modelled exactly on rationals. -/
def round1 (q : ℚ) : ℚ :=
  let t := q * 10
  let f := Int.floor t
  let n :=
    if t - f < 1/2 then f
    else if 1/2 < t - f then f + 1
    else if f % 2 = 0 then f else f + 1
  (n : ℚ) / 10

/-- IconAuditor.analyze_metrics (icon_audit.py, lines 117-188), parametric
    in the float square root used by np.sqrt and np.std (scipy, imported on
    the visible path, is assumed installed, as the fallback comment in the
    source intends).  The translation keeps the control flow of the source:
    on a fully transparent image the Python code assigns sharpness and
    contrast and then evaluates mask.sum() although the local mask was only
    assigned in the other branch, so that path raises UnboundLocalError;
    np.gradient raises ValueError when either image axis has fewer than 2
    samples. -/
def analyze_metrics (sqrtQ : ℚ → ℚ) (image0 : Img) : Except PyErr Metrics :=
  let image := if image0.mode ≠ .rgba then convertRGBA image0 else image0
  let w := image.width
  let h := image.height
  let alpha := alphaList image
  if npMax alpha = 0 then
    Except.error PyErr.unboundLocalMask
  else if h < 2 ∨ w < 2 then
    Except.error PyErr.gradientShapeTooSmall
  else
    let coords := coordList w h
    let maskP := fun (p : Nat × Nat) => decide (10 < (image.pix p.1 p.2).a)
    let maskCount := coords.countP maskP
    let sharpness :=
      if 0 < maskCount then
        let score :=
          meanQ (coords.filterMap fun p =>
            if maskP p then some (gradMag sqrtQ image p.1 p.2) else none)
        round1 (min (score * 2) 100)
      else 0
    let grayVals : List ℚ :=
      coords.filterMap fun p => if maskP p then some (grayAt image p.1 p.2 : ℚ) else none
    let contrast := if 0 < maskCount then round1 (sqrtQ (varQ grayVals)) else 0
    let brightness := if 0 < maskCount then round1 (meanQ grayVals) else 0
    let visible_pixels : List RGBA :=
      coords.filterMap fun p => if maskP p then some (image.pix p.1 p.2) else none
    let palette_size :=
      if 0 < visible_pixels.length then visible_pixels.eraseDups.length else 0
    Except.ok ⟨sharpness, contrast, brightness, palette_size⟩

/-- The UnsharpMask parameter dict used by ImageProcessor
    (image_processor.py): radius, percent, threshold. -/
structure SharpenParams where
  radius : ℚ
  percent : Nat
  threshold : Nat
deriving DecidableEq, Repr

/-- square.paste(image, (ox, oy)) with no mask: the rectangle of the
    destination starting at (ox, oy) is replaced by the source pixels,
    alpha included; the destination keeps its size. -/
def pasteAt (dst src : Img) (ox oy : Nat) : Img :=
  ⟨dst.width, dst.height, dst.mode, fun x y =>
    if ox ≤ x ∧ x < ox + src.width ∧ oy ≤ y ∧ y < oy + src.height then
      src.pix (x - ox) (y - oy)
    else dst.pix x y⟩

/-- ImageProcessor.resize_to_square (image_processor.py, lines 105-153),
    parametric in the LANCZOS resize and in UnsharpMask.  With
    maintain_aspect the input is pasted at integer-floor offsets onto a
    transparent square canvas of side max(width, height) and the canvas is
    resized to (size, size); without it the input is stretched directly.
    When sharpen parameters are given, UnsharpMask runs on the result. -/
def resize_to_square (resizeF : Img → Nat → Nat → Img)
    (unsharpF : Img → SharpenParams → Img) (image : Img) (size : Nat)
    (maintain_aspect : Bool) (sharpen_params : Option SharpenParams) : Img :=
  let resized :=
    if maintain_aspect then
      let max_dim := max image.width image.height
      let square := newRGBA max_dim max_dim ⟨0, 0, 0, 0⟩
      let offset_x := (max_dim - image.width) / 2
      let offset_y := (max_dim - image.height) / 2
      resizeF (pasteAt square image offset_x offset_y) size size
    else resizeF image size size
  match sharpen_params with
  | some sp => unsharpF resized sp
  | none => resized

/-- ALL_SIZES (image_processor.py, lines 15-18):
    sorted(set(WINDOWS_SIZES + MAC_SIZES + WEB_SIZES)) with
    WINDOWS_SIZES = [16, 32, 48, 256], MAC_SIZES = [16, 32, 64, 128, 256,
    512, 1024], WEB_SIZES = [100]. -/
def ALL_SIZES : List Nat := [16, 32, 48, 64, 100, 128, 256, 512, 1024]

/-- ImageProcessor.generate_all_sizes (image_processor.py, lines 155-186):
    no processed image gives an empty dict; otherwise every requested size
    is mapped to resize_to_square of the processed image at that size, with
    aggressive UnsharpMask parameters for sizes up to 32, mild ones up to
    64, and none above. -/
def generate_all_sizes (resizeF : Img → Nat → Nat → Img)
    (unsharpF : Img → SharpenParams → Img) (processed_image : Option Img)
    (sizes : Option (List Nat)) : List (Nat × Img) :=
  match processed_image with
  | none => []
  | some img =>
    (sizes.getD ALL_SIZES).map fun size =>
      let sharpen_params :=
        if size ≤ 32 then some ⟨1/2, 150, 2⟩
        else if size ≤ 64 then some ⟨1/2, 100, 3⟩
        else none
      (size, resize_to_square resizeF unsharpF img size true sharpen_params)

/-!
Object-identity model.  The purity claim (no transform mutates its input,
every transform hands back a fresh object) is about Python object
semantics, not about pixel values, so the four transforms are additionally
embedded against an explicit object heap: every PIL object creation
(split, filter, subtract, new, merge, resize, point, convert,
alpha_composite) appends a fresh cell, and the single in-place PIL call the
code performs, stroke_layer.putalpha(stroke_mask), overwrites the cell of
the freshly created stroke layer.  A transform receives the heap and the
index of its input object and returns the extended heap and the index of
its result object.
-/

/-- A heap cell: a PIL Image object or a single-band object. -/
inductive PObj
  | img (g : Img)
  | chan (c : Chan)

/-- The Python object heap: cell i is the object with identity i. -/
abbrev Heap := List PObj

/-- Read an Image object from the heap (a dangling or mistyped reference
    yields an inert placeholder that every transform treats as a no-op). -/
def getImg (h : Heap) (i : Nat) : Img :=
  match h.get? i with
  | some (PObj.img g) => g
  | _ => ⟨0, 0, .other, fun _ _ => ⟨0, 0, 0, 0⟩⟩

/-- Allocate a fresh cell, returning the extended heap and its index. -/
def halloc (h : Heap) (o : PObj) : Heap × Nat := (h ++ [o], h.length)

/-- StrokeGenerator.apply_stroke against the object heap: the guard
    branches return the very input reference; the effective branch
    allocates the four split bands, the filtered masks, the subtracted
    stroke mask, the stroke layer, mutates the stroke layer in place
    (putalpha) and allocates the composite result. -/
def applyStrokeH (h : Heap) (i : Nat) (color : RGBA) (width : Int)
    (alignment : StrokeAlignment) : Heap × Nat :=
  let image := getImg h i
  if width ≤ 0 ∨ image.mode ≠ .rgba then (h, i)
  else
    let (h, _) := halloc h (.chan (chanOfR image))
    let (h, _) := halloc h (.chan (chanOfG image))
    let (h, _) := halloc h (.chan (chanOfB image))
    let (h, _) := halloc h (.chan (chanOfA image))
    let mask := chanOfA image
    let hmasks :=
      match alignment with
      | .outside =>
          let om := maxFilterR mask width.toNat
          ((halloc h (.chan om)).1, (om, mask))
      | .inside =>
          let im := minFilterR mask width.toNat
          ((halloc h (.chan im)).1, (mask, im))
      | .center =>
          let half_w := max 1 (width.toNat / 2)
          let om := maxFilterR mask half_w
          let im := minFilterR mask half_w
          ((halloc (halloc h (.chan om)).1 (.chan im)).1, (om, im))
    let h := hmasks.1
    let stroke_mask := chopsSubtract hmasks.2.1 hmasks.2.2
    let (h, _) := halloc h (.chan stroke_mask)
    let (h, slRef) := halloc h (.img (newRGBA image.width image.height color))
    let stroke_layer := putalpha (newRGBA image.width image.height color) stroke_mask
    let h := h.set slRef (.img stroke_layer)
    let result :=
      match alignment with
      | .outside => alphaCompositeImg stroke_layer image
      | _ => alphaCompositeImg image stroke_layer
    let (h, resRef) := halloc h (.img result)
    (h, resRef)

/-- SuperPolisher.liquid_smooth against the object heap: the guard returns
    the input reference; the effective path only allocates (resize, blur,
    split, point, merge, resize are all fresh-object calls). -/
def liquidSmoothH (resizeF : Img → Nat → Nat → Img) (blurF : Img → ℚ → Img)
    (h : Heap) (i : Nat) (intensity : ℚ) : Heap × Nat :=
  let image := getImg h i
  if intensity ≤ 0 ∨ image.mode ≠ .rgba then (h, i)
  else
    let w := image.width
    let h2 := image.height
    let supersampled := resizeF image (w * 4) (h2 * 4)
    let (hp, _) := halloc h (.img supersampled)
    let blurred := blurF supersampled (2 + intensity * 8)
    let (hp, _) := halloc hp (.img blurred)
    let (hp, _) := halloc hp (.chan (chanOfR blurred))
    let (hp, _) := halloc hp (.chan (chanOfG blurred))
    let (hp, _) := halloc hp (.chan (chanOfB blurred))
    let (hp, _) := halloc hp (.chan (chanOfA blurred))
    let a_sharp := pointMap levels_curve (chanOfA blurred)
    let (hp, _) := halloc hp (.chan a_sharp)
    let polished_big := mergeRGBA (chanOfR blurred) (chanOfG blurred) (chanOfB blurred) a_sharp
    let (hp, _) := halloc hp (.img polished_big)
    let (hp, resRef) := halloc hp (.img (resizeF polished_big w h2))
    (hp, resRef)

/-- IconAuditor.audit_image against the object heap: a possible RGBA
    conversion and the four split bands are fresh objects, np.array copies
    into plain values, nothing is written; the report is a plain value. -/
def auditImageH (h : Heap) (i : Nat) : Heap × List AuditIssue :=
  let image0 := getImg h i
  let image := if image0.mode ≠ .rgba then convertRGBA image0 else image0
  let (hp, _) := if image0.mode ≠ .rgba then halloc h (.img image) else (h, i)
  let (hp, _) := halloc hp (.chan (chanOfR image))
  let (hp, _) := halloc hp (.chan (chanOfG image))
  let (hp, _) := halloc hp (.chan (chanOfB image))
  let (hp, _) := halloc hp (.chan (chanOfA image))
  (hp, audit_image image0)

/-- IconAuditor.analyze_metrics against the object heap: conversions and
    split bands are fresh objects, the numpy arrays are value copies,
    nothing is written. -/
def analyzeMetricsH (sqrtQ : ℚ → ℚ) (h : Heap) (i : Nat) :
    Heap × Except PyErr Metrics :=
  let image0 := getImg h i
  let image := if image0.mode ≠ .rgba then convertRGBA image0 else image0
  let (hp, _) := if image0.mode ≠ .rgba then halloc h (.img image) else (h, i)
  let (hp, _) := halloc hp (.img ⟨image.width, image.height, .l,
    fun x y => let v := grayAt image x y; ⟨v, v, v, 255⟩⟩)
  let (hp, _) := halloc hp (.chan (chanOfR image))
  let (hp, _) := halloc hp (.chan (chanOfG image))
  let (hp, _) := halloc hp (.chan (chanOfB image))
  let (hp, _) := halloc hp (.chan (chanOfA image))
  (hp, analyze_metrics sqrtQ image0)

/-!
Observables and specification-side definitions used by the theorems.
-/

/-- Number of issues of a given check name in an audit report. -/
def countCheck (issues : List AuditIssue) (nm : String) : Nat :=
  issues.countP fun i => decide (i.check_name = nm)

/-- Number of issues of a given check name and severity in an audit report. -/
def countCheckSev (issues : List AuditIssue) (nm : String) (sev : IssueSeverity) : Nat :=
  issues.countP fun i => decide (i.check_name = nm ∧ i.severity = sev)

/-- AlphaMorphology expand of the specification: dilation of an alpha mask
    by radius n over the shared square structuring element. -/
def expand (m : Chan) (n : Nat) : Chan := maxFilterR m n

/-- AlphaMorphology choke of the specification: erosion of an alpha mask by
    radius n over the shared square structuring element. -/
def choke (m : Chan) (n : Nat) : Chan := minFilterR m n

/-- The alpha remap exactly as the specification words it: inputs below 100
    map to 0, inputs above 180 map to 255, and inputs in between map by
    linear interpolation between those bounds (quantised to a byte). -/
def claimRemap (x : Nat) : Nat :=
  if x < 100 then 0 else if 180 < x then 255 else (x - 100) * 255 / (180 - 100)

/-- Center-aligned stroke exactly as the specification table words it:
    outer = expand(M, w/2), inner = choke(M, w/2), stroke region =
    outer minus inner, stroke composited over the image.  Used to compare
    the specified behaviour against the translated code. -/
def applyStrokeCenterClaimed (image : Img) (color : RGBA) (width : Int) : Img :=
  let M := chanOfA image
  let strokeRegion := chopsSubtract (expand M (width.toNat / 2)) (choke M (width.toNat / 2))
  alphaCompositeImg image (putalpha (newRGBA image.width image.height color) strokeRegion)

/-- Palette size exactly as the claim words it: the number of distinct RGB
    triples among the pixels with alpha > 0. -/
def paletteSizeClaim (g : Img) : Nat :=
  ((coordList g.width g.height).filterMap fun p =>
    if 0 < (g.pix p.1 p.2).a then some ((g.pix p.1 p.2).r, (g.pix p.1 p.2).g, (g.pix p.1 p.2).b)
    else none).eraseDups.length

/-- Palette size as the source computes it: the number of distinct RGBA
    quadruples among the pixels with alpha > 10. -/
def paletteSizeA10 (g : Img) : Nat :=
  ((coordList g.width g.height).filterMap fun p =>
    if 10 < (g.pix p.1 p.2).a then some (g.pix p.1 p.2) else none).eraseDups.length

/-- A concrete stand-in for the external float square root (its values are
    irrelevant to every property proved below). -/
def sq0 : ℚ → ℚ := fun _ => 0

/-- A concrete resize satisfying the PIL contract that resize((w, h))
    returns an image of exactly that size. -/
def rf0 : Img → Nat → Nat → Img := fun g w h => ⟨w, h, g.mode, g.pix⟩

/-- A concrete stand-in for Gaussian blur (size-preserving). -/
def bf0 : Img → ℚ → Img := fun g _ => g

/-- A concrete stand-in for UnsharpMask (size-preserving). -/
def uf0 : Img → SharpenParams → Img := fun g _ => g

/-- A fully transparent 1x1 RGBA image. -/
def imclear1 : Img := ⟨1, 1, .rgba, fun _ _ => ⟨0, 0, 0, 0⟩⟩

/-- A 1x1 RGBA image with constant alpha 128: neither fully opaque nor
    fully transparent. -/
def imHalf : Img := ⟨1, 1, .rgba, fun _ _ => ⟨5, 5, 5, 128⟩⟩

/-- A 512x1 fully opaque RGBA image: its width is 512 but its smaller
    dimension is 1. -/
def imWide : Img := ⟨512, 1, .rgba, fun _ _ => ⟨10, 10, 10, 255⟩⟩

/-- A 2x2 RGBA image with one fully opaque pixel and one faint pixel of
    alpha 5 (visible by the alpha > 0 rule, invisible by alpha > 10). -/
def imTwo : Img := ⟨2, 2, .rgba, fun x y =>
  if x = 0 ∧ y = 0 then ⟨1, 2, 3, 255⟩
  else if x = 1 ∧ y = 0 then ⟨9, 9, 9, 5⟩
  else ⟨0, 0, 0, 0⟩⟩

/-- A 3x3 RGBA image whose only opaque pixel is the center. -/
def imDot : Img := ⟨3, 3, .rgba, fun x y =>
  if x = 1 ∧ y = 1 then ⟨10, 20, 30, 255⟩ else ⟨0, 0, 0, 0⟩⟩

/-- A fully opaque 1x1 RGBA image. -/
def imOpaque : Img := ⟨1, 1, .rgba, fun _ _ => ⟨7, 8, 9, 255⟩⟩

/-- A one-object heap holding imOpaque at reference 0. -/
def heap0 : Heap := [PObj.img imOpaque]

/-!
Shared helper lemmas.
-/

/-- Setting the cell that was just allocated at the end of a heap replaces
    its content in place. -/
theorem set_at_end (l : List PObj) (a v : PObj) : (l ++ [a]).set l.length v = l ++ [v] := by
  rw [List.set_append_right]
  · simp
  · omega

/-- apply_stroke never writes an existing heap cell: its only in-place call
    targets the freshly allocated stroke layer. -/
theorem strokeH_pres (h : Heap) (i : Nat) (c : RGBA) (w : Int) (al : StrokeAlignment)
    (hi : i < h.length) : ((applyStrokeH h i c w al).1)[i]? = h[i]? := by
  by_cases hcond : (w ≤ 0 ∨ (getImg h i).mode ≠ PilMode.rgba)
  · unfold applyStrokeH
    rw [if_pos hcond]
  · cases al <;>
      (unfold applyStrokeH halloc
       rw [if_neg hcond]
       simp only []
       rw [set_at_end]
       simp only [List.append_assoc]
       exact List.getElem?_append_left hi)

/-- On the effective path, apply_stroke returns a reference beyond the
    original heap: a freshly created object. -/
theorem strokeH_fresh (h : Heap) (i : Nat) (c : RGBA) (w : Int) (al : StrokeAlignment)
    (hcond : ¬(w ≤ 0 ∨ (getImg h i).mode ≠ PilMode.rgba)) :
    h.length ≤ (applyStrokeH h i c w al).2 := by
  cases al <;>
    (unfold applyStrokeH halloc
     rw [if_neg hcond]
     simp only []
     rw [set_at_end]
     simp)

/-- liquid_smooth only allocates: every existing heap cell is unchanged. -/
theorem liquidH_pres (rf : Img → Nat → Nat → Img) (bf : Img → ℚ → Img)
    (h : Heap) (i : Nat) (t : ℚ) (hi : i < h.length) :
    ((liquidSmoothH rf bf h i t).1)[i]? = h[i]? := by
  by_cases hcond : (t ≤ 0 ∨ (getImg h i).mode ≠ PilMode.rgba)
  · unfold liquidSmoothH
    rw [if_pos hcond]
  · unfold liquidSmoothH halloc
    rw [if_neg hcond]
    simp only [List.append_assoc]
    exact List.getElem?_append_left hi

/-- On the effective path, liquid_smooth returns a fresh reference. -/
theorem liquidH_fresh (rf : Img → Nat → Nat → Img) (bf : Img → ℚ → Img)
    (h : Heap) (i : Nat) (t : ℚ)
    (hcond : ¬(t ≤ 0 ∨ (getImg h i).mode ≠ PilMode.rgba)) :
    h.length ≤ (liquidSmoothH rf bf h i t).2 := by
  unfold liquidSmoothH halloc
  rw [if_neg hcond]
  simp

/-- audit_image only allocates: every existing heap cell is unchanged. -/
theorem auditH_pres (h : Heap) (i : Nat) (hi : i < h.length) :
    ((auditImageH h i).1)[i]? = h[i]? := by
  unfold auditImageH halloc
  by_cases hm : (getImg h i).mode = PilMode.rgba
  · simp only [hm, ne_eq, not_true_eq_false, ite_false, if_false, List.append_assoc]
    exact List.getElem?_append_left hi
  · simp only [ne_eq, hm, not_false_eq_true, ite_true, if_true, List.append_assoc]
    exact List.getElem?_append_left hi

/-- analyze_metrics only allocates: every existing heap cell is unchanged. -/
theorem metricsH_pres (sq : ℚ → ℚ) (h : Heap) (i : Nat) (hi : i < h.length) :
    ((analyzeMetricsH sq h i).1)[i]? = h[i]? := by
  unfold analyzeMetricsH halloc
  by_cases hm : (getImg h i).mode = PilMode.rgba
  · simp only [hm, ne_eq, not_true_eq_false, ite_false, if_false, List.append_assoc]
    exact List.getElem?_append_left hi
  · simp only [ne_eq, hm, not_false_eq_true, ite_true, if_true, List.append_assoc]
    exact List.getElem?_append_left hi

/-- countCheck distributes over list append. -/
theorem countCheck_append (L1 L2 : List AuditIssue) (nm : String) :
    countCheck (L1 ++ L2) nm = countCheck L1 nm + countCheck L2 nm := by
  simp [countCheck, List.countP_append]

/-- countCheckSev distributes over list append. -/
theorem countCheckSev_append (L1 L2 : List AuditIssue) (nm : String) (sev : IssueSeverity) :
    countCheckSev (L1 ++ L2) nm sev = countCheckSev L1 nm sev + countCheckSev L2 nm sev := by
  simp [countCheckSev, List.countP_append]

/-- countCheck on a cons cell. -/
theorem countCheck_cons (i : AuditIssue) (L : List AuditIssue) (nm : String) :
    countCheck (i :: L) nm = countCheck L nm + (if i.check_name = nm then 1 else 0) := by
  by_cases h : i.check_name = nm <;> simp [countCheck, List.countP_cons, h]

/-- countCheckSev on a cons cell. -/
theorem countCheckSev_cons (i : AuditIssue) (L : List AuditIssue) (nm : String)
    (sev : IssueSeverity) :
    countCheckSev (i :: L) nm sev
      = countCheckSev L nm sev + (if i.check_name = nm ∧ i.severity = sev then 1 else 0) := by
  by_cases h : i.check_name = nm ∧ i.severity = sev <;>
    simp [countCheckSev, List.countP_cons, h]

/-- countCheck on the empty report. -/
theorem countCheck_nil (nm : String) : countCheck [] nm = 0 := rfl

/-- countCheckSev on the empty report. -/
theorem countCheckSev_nil (nm : String) (sev : IssueSeverity) : countCheckSev [] nm sev = 0 := rfl

/-- On an RGBA input, audit_image is the concatenation of its four check
    sections in source order. -/
theorem audit_decomp (g : Img) (hm : g.mode = PilMode.rgba) :
    audit_image g = aspectIssues g ++ resolutionIssues g ++ transparencyIssues g ++
      cleanlinessIssues g := by
  unfold audit_image
  simp [hm]

/-- The aspect section always holds exactly one issue, named Aspect Ratio. -/
theorem aspect_counts (g : Img) :
    countCheck (aspectIssues g) "Aspect Ratio" = 1 ∧
    countCheck (aspectIssues g) "Resolution" = 0 ∧
    countCheck (aspectIssues g) "Transparency" = 0 ∧
    countCheckSev (aspectIssues g) "Transparency" IssueSeverity.info = 0 ∧
    countCheck (aspectIssues g) "Edge Quality" = 0 ∧
    countCheck (aspectIssues g) "Cleanliness" = 0 ∧
    (aspectIssues g).length = 1 := by
  unfold aspectIssues countCheck countCheckSev
  split <;> simp_all

/-- The resolution section always holds exactly one issue, named
    Resolution. -/
theorem resolution_counts (g : Img) :
    countCheck (resolutionIssues g) "Aspect Ratio" = 0 ∧
    countCheck (resolutionIssues g) "Resolution" = 1 ∧
    countCheck (resolutionIssues g) "Transparency" = 0 ∧
    countCheckSev (resolutionIssues g) "Transparency" IssueSeverity.info = 0 ∧
    countCheck (resolutionIssues g) "Edge Quality" = 0 ∧
    countCheck (resolutionIssues g) "Cleanliness" = 0 ∧
    (resolutionIssues g).length = 1 := by
  unfold resolutionIssues countCheck countCheckSev
  split <;> simp_all

/-- The cleanliness section always holds exactly one issue, named
    Cleanliness. -/
theorem cleanliness_counts (g : Img) :
    countCheck (cleanlinessIssues g) "Aspect Ratio" = 0 ∧
    countCheck (cleanlinessIssues g) "Resolution" = 0 ∧
    countCheck (cleanlinessIssues g) "Transparency" = 0 ∧
    countCheckSev (cleanlinessIssues g) "Transparency" IssueSeverity.info = 0 ∧
    countCheck (cleanlinessIssues g) "Edge Quality" = 0 ∧
    countCheck (cleanlinessIssues g) "Cleanliness" = 1 ∧
    (cleanlinessIssues g).length = 1 := by
  unfold cleanlinessIssues countCheck countCheckSev
  simp only []
  split_ifs <;> simp_all

/-- The transparency section of the audit: an Info Transparency issue when
    the alpha plane is constant 255, an Edge Quality issue when the alpha
    plane is non-constant and not fully opaque, and nothing otherwise. -/
theorem transparency_cases (g : Img) :
    (npMin (alphaList g) = 255 ∧ ∃ i, transparencyIssues g = [i] ∧
        i.check_name = "Transparency" ∧ i.severity = IssueSeverity.info)
    ∨ (npMin (alphaList g) ≠ 255 ∧ npStdPos (alphaList g) = true ∧ ∃ i,
        transparencyIssues g = [i] ∧ i.check_name = "Edge Quality")
    ∨ (npMin (alphaList g) ≠ 255 ∧ npStdPos (alphaList g) = false ∧
        transparencyIssues g = []) := by
  unfold transparencyIssues
  by_cases h1 : npMin (alphaList g) = 255
  · exact Or.inl ⟨h1, _, by rw [if_pos h1], rfl, rfl⟩
  · refine Or.inr ?_
    by_cases h2 : npStdPos (alphaList g) = true
    · refine Or.inl ⟨h1, h2, ?_⟩
      rw [if_neg h1, if_pos (by simp [h2])]
      simp only []
      split_ifs <;> exact ⟨_, rfl, rfl⟩
    · refine Or.inr ⟨h1, by simpa using h2, ?_⟩
      rw [if_neg h1, if_neg (by simp_all)]

/-- The Resolution issue is a Warning exactly when the width is below 512
    and a Pass otherwise (the height plays no role). -/
theorem resolution_char (g : Img) (hm : g.mode = PilMode.rgba) :
    countCheckSev (audit_image g) "Resolution" IssueSeverity.warning
        = (if g.width < 512 then 1 else 0) ∧
      countCheckSev (audit_image g) "Resolution" IssueSeverity.pass
        = (if g.width < 512 then 0 else 1) := by
  unfold audit_image aspectIssues resolutionIssues transparencyIssues cleanlinessIssues
    countCheckSev
  simp only [hm, ne_eq, not_true_eq_false, ite_false, if_false]
  split_ifs <;> simp_all

/-- Source-over with a fully opaque source pixel returns the source pixel
    unchanged. -/
theorem srcOver_alpha255 (d s : RGBA) (hs : s.a = 255) : srcOverPx d s = s := by
  obtain ⟨r, g, b, a⟩ := s
  simp only at hs
  subst hs
  unfold srcOverPx byteRound
  rw [if_neg (by simp)]
  have hfloor : ∀ n : Nat, (Int.floor ((n : ℚ) + 1/2)).toNat = n := by
    intro n
    rw [show ((n : ℚ) + 1/2) = ((n : ℤ) : ℚ) + (1/2 : ℚ) by push_cast; ring,
      Int.floor_int_add]
    norm_num
  simp only [RGBA.mk.injEq]
  refine ⟨?_, ?_, ?_, ?_⟩
  · rw [show (((r : Nat) : ℚ) * ((255:Nat) : ℚ) * 255 + ((d.r : Nat) : ℚ) * d.a * (255 - ((255:Nat) : ℚ))) /
        (((255:Nat) : ℚ) * 255 + (d.a : ℚ) * (255 - ((255:Nat) : ℚ))) = (r : ℚ) by
      push_cast; rw [div_eq_iff (by norm_num)]; ring]
    exact hfloor r
  · rw [show (((g : Nat) : ℚ) * ((255:Nat) : ℚ) * 255 + ((d.g : Nat) : ℚ) * d.a * (255 - ((255:Nat) : ℚ))) /
        (((255:Nat) : ℚ) * 255 + (d.a : ℚ) * (255 - ((255:Nat) : ℚ))) = (g : ℚ) by
      push_cast; rw [div_eq_iff (by norm_num)]; ring]
    exact hfloor g
  · rw [show (((b : Nat) : ℚ) * ((255:Nat) : ℚ) * 255 + ((d.b : Nat) : ℚ) * d.a * (255 - ((255:Nat) : ℚ))) /
        (((255:Nat) : ℚ) * 255 + (d.a : ℚ) * (255 - ((255:Nat) : ℚ))) = (b : ℚ) by
      push_cast; rw [div_eq_iff (by norm_num)]; ring]
    exact hfloor b
  · rw [show ((((255:Nat) : ℚ) * 255 + (d.a : ℚ) * (255 - ((255:Nat) : ℚ))) / 255) = ((255:Nat) : ℚ) by
      push_cast; norm_num]
    exact hfloor 255

/-- Source-over with a fully transparent source pixel returns the
    destination pixel unchanged. -/
theorem srcOver_transparent (d s : RGBA) (hs : s.a = 0) : srcOverPx d s = d := by
  unfold srcOverPx
  rw [if_pos hs]

/-- The effective center-alignment branch of apply_stroke, written out:
    both masks are filtered with radius max(1, width / 2) and the stroke
    layer is composited over the image. -/
theorem stroke_center_eq (g : Img) (color : RGBA) (w : Int)
    (hcond : ¬(w ≤ 0 ∨ g.mode ≠ PilMode.rgba)) :
    applyStroke g color w .center =
      alphaCompositeImg g (putalpha (newRGBA g.width g.height color)
        (chopsSubtract (maxFilterR (chanOfA g) (max 1 (w.toNat / 2)))
          (minFilterR (chanOfA g) (max 1 (w.toNat / 2))))) := by
  unfold applyStroke
  rw [if_neg hcond]

/-- The translated levels curve coincides with the remap as the
    specification words it. -/
theorem levels_eq_claim : levels_curve = claimRemap := by
  funext x
  unfold levels_curve claimRemap
  norm_num

/-- resize_to_square always returns an image of exactly the requested
    square size, for any maintain_aspect flag and sharpen parameters,
    given the size contracts of resize and UnsharpMask. -/
theorem rts_dims (rf : Img → Nat → Nat → Img) (uf : Img → SharpenParams → Img)
    (hrf : ∀ g a b, (rf g a b).width = a ∧ (rf g a b).height = b)
    (huf : ∀ g sp, (uf g sp).width = g.width ∧ (uf g sp).height = g.height)
    (g : Img) (s : Nat) (ma : Bool) (sp : Option SharpenParams) :
    (resize_to_square rf uf g s ma sp).width = s ∧
      (resize_to_square rf uf g s ma sp).height = s := by
  unfold resize_to_square
  cases sp with
  | none => cases ma <;> simp only [] <;> exact ⟨(hrf _ _ _).1, (hrf _ _ _).2⟩
  | some p =>
    cases ma <;> simp only [] <;>
      exact ⟨((huf _ _).1).trans (hrf _ _ _).1, ((huf _ _).2).trans (hrf _ _ _).2⟩

/-!
Claim theorems.
-/

/-- C1: the specification states that analyzeMetrics on a fully transparent
    image returns the all-zero metrics dict without error; the code instead
    evaluates mask.sum() on a path where the local variable mask was never
    assigned, so every fully transparent RGBA image makes analyze_metrics
    raise UnboundLocalError instead of returning. -/
theorem analyzeMetrics_transparent_unbound_local (sq : ℚ → ℚ) (g : Img)
    (hm : g.mode = PilMode.rgba) (ha : npMax (alphaList g) = 0) :
    analyze_metrics sq g = Except.error PyErr.unboundLocalMask := by
  unfold analyze_metrics
  simp [hm, ha]

/-- C1 witness: the 1x1 fully transparent image raises. -/
theorem analyzeMetrics_transparent_unbound_local_witness :
    imclear1.mode = PilMode.rgba ∧ npMax (alphaList imclear1) = 0 ∧
      analyze_metrics sq0 imclear1 = Except.error PyErr.unboundLocalMask :=
  ⟨rfl, by decide, analyzeMetrics_transparent_unbound_local sq0 imclear1 rfl (by decide)⟩

/-- C2 counterexample: on a 1x1 image of constant alpha 128 — neither fully
    opaque nor fully transparent — the audit report contains no
    Transparency issue at all (refuting that the Transparency check always
    yields one issue) and also no Edge Quality issue (refuting that Edge
    Quality is present exactly when the image is neither fully opaque nor
    fully transparent). -/
theorem audit_transparency_missing_cex :
    npMin (alphaList imHalf) ≠ 255 ∧ npMax (alphaList imHalf) ≠ 0 ∧
    countCheck (audit_image imHalf) "Transparency" = 0 ∧
    countCheck (audit_image imHalf) "Edge Quality" = 0 := by
  refine ⟨by decide, by decide, by decide, by decide⟩

/-- C2 amended: audit_image on a nonempty RGBA image yields exactly one
    issue each for Aspect Ratio, Resolution and Cleanliness; a Transparency
    issue, of severity Info, exactly when every alpha value is 255; an Edge
    Quality issue exactly when the image is not fully opaque and the alpha
    plane is non-constant; and nothing else. -/
theorem audit_fixed_checks_amended (g : Img) (hm : g.mode = PilMode.rgba)
    (_hw : 0 < g.width) (_hh : 0 < g.height) :
    countCheck (audit_image g) "Aspect Ratio" = 1 ∧
    countCheck (audit_image g) "Resolution" = 1 ∧
    countCheck (audit_image g) "Cleanliness" = 1 ∧
    countCheck (audit_image g) "Transparency" = (if npMin (alphaList g) = 255 then 1 else 0) ∧
    countCheckSev (audit_image g) "Transparency" IssueSeverity.info
      = (if npMin (alphaList g) = 255 then 1 else 0) ∧
    countCheck (audit_image g) "Edge Quality"
      = (if npMin (alphaList g) ≠ 255 ∧ npStdPos (alphaList g) = true then 1 else 0) ∧
    (audit_image g).length
      = 3 + countCheck (audit_image g) "Transparency"
        + countCheck (audit_image g) "Edge Quality" := by
  have hd := audit_decomp g hm
  obtain ⟨a1, a2, a3, a4, a5, a6, a7⟩ := aspect_counts g
  obtain ⟨r1, r2, r3, r4, r5, r6, r7⟩ := resolution_counts g
  obtain ⟨c1, c2, c3, c4, c5, c6, c7⟩ := cleanliness_counts g
  rcases transparency_cases g with ⟨h1, i, hi, hnm, hsev⟩ | ⟨h1, h2, i, hi, hnm⟩ | ⟨h1, h2, hemp⟩
  · rw [hd]
    refine ⟨?_, ?_, ?_, ?_, ?_, ?_, ?_⟩ <;>
      simp [countCheck_append, countCheckSev_append, countCheck_cons, countCheckSev_cons,
        a1, a2, a3, a4, a5, a6, a7, r1, r2, r3, r4, r5, r6, r7,
        c1, c2, c3, c4, c5, c6, c7, hi, hnm, hsev, h1, List.length_append]
  · rw [hd]
    refine ⟨?_, ?_, ?_, ?_, ?_, ?_, ?_⟩ <;>
      simp [countCheck_append, countCheckSev_append, countCheck_cons, countCheckSev_cons,
        a1, a2, a3, a4, a5, a6, a7, r1, r2, r3, r4, r5, r6, r7,
        c1, c2, c3, c4, c5, c6, c7, hi, hnm, h1, h2, List.length_append]
  · rw [hd]
    refine ⟨?_, ?_, ?_, ?_, ?_, ?_, ?_⟩ <;>
      simp [countCheck_append, countCheckSev_append, countCheck_nil, countCheckSev_nil,
        a1, a2, a3, a4, a5, a6, a7, r1, r2, r3, r4, r5, r6, r7,
        c1, c2, c3, c4, c5, c6, c7, hemp, h1, h2, List.length_append]

/-- C2 witness: the amended characterisation evaluated on the 1x1 alpha-128
    image. -/
theorem audit_fixed_checks_amended_witness :
    countCheck (audit_image imHalf) "Aspect Ratio" = 1 ∧
    countCheck (audit_image imHalf) "Resolution" = 1 ∧
    countCheck (audit_image imHalf) "Cleanliness" = 1 ∧
    countCheck (audit_image imHalf) "Transparency"
      = (if npMin (alphaList imHalf) = 255 then 1 else 0) ∧
    countCheckSev (audit_image imHalf) "Transparency" IssueSeverity.info
      = (if npMin (alphaList imHalf) = 255 then 1 else 0) ∧
    countCheck (audit_image imHalf) "Edge Quality"
      = (if npMin (alphaList imHalf) ≠ 255 ∧ npStdPos (alphaList imHalf) = true then 1 else 0) ∧
    (audit_image imHalf).length
      = 3 + countCheck (audit_image imHalf) "Transparency"
        + countCheck (audit_image imHalf) "Edge Quality" :=
  audit_fixed_checks_amended imHalf rfl (by decide) (by decide)

/-- C3 counterexample: the 512x1 image has min(width, height) = 1 < 512,
    so the claim demands a Warning, but the code checks only the width and
    reports Pass (no Resolution Warning is present). -/
theorem resolution_min_dimension_cex :
    min imWide.width imWide.height < 512 ∧
      countCheckSev (audit_image imWide) "Resolution" IssueSeverity.warning = 0 := by
  refine ⟨by decide, ?_⟩
  rw [(resolution_char imWide rfl).1]
  decide

/-- C3 amended: the Resolution check yields a Warning exactly when the
    width is below 512 and a Pass otherwise; the height is ignored. -/
theorem resolution_width_only_amended (g : Img) (hm : g.mode = PilMode.rgba) :
    countCheckSev (audit_image g) "Resolution" IssueSeverity.warning
        = (if g.width < 512 then 1 else 0) ∧
      countCheckSev (audit_image g) "Resolution" IssueSeverity.pass
        = (if g.width < 512 then 0 else 1) :=
  resolution_char g hm

/-- C3 witness: the amended characterisation evaluated on the 512x1
    image. -/
theorem resolution_width_only_amended_witness :
    countCheckSev (audit_image imWide) "Resolution" IssueSeverity.warning
        = (if imWide.width < 512 then 1 else 0) ∧
      countCheckSev (audit_image imWide) "Resolution" IssueSeverity.pass
        = (if imWide.width < 512 then 0 else 1) :=
  resolution_width_only_amended imWide rfl

/-- C4 counterexample: on the 2x2 image with one opaque pixel and one
    alpha-5 pixel, the claim counts 2 distinct RGB triples among pixels
    with alpha > 0, but analyze_metrics returns palette size 1 (it masks
    with alpha > 10 and compares full RGBA rows). -/
theorem palette_metric_cex :
    paletteSizeClaim imTwo = 2 ∧
      (analyze_metrics sq0 imTwo).toOption.map Metrics.palette_size = some 1 := by
  refine ⟨by decide, by decide⟩

/-- C4 amended: on an RGBA image with both dimensions at least 2 and at
    least one pixel of positive alpha, analyze_metrics returns, and its
    palette size equals the number of distinct RGBA quadruples among
    exactly the pixels with alpha > 10. -/
theorem palette_alpha10_rgba_amended (sq : ℚ → ℚ) (g : Img) (hm : g.mode = PilMode.rgba)
    (hw : 2 ≤ g.width) (hh : 2 ≤ g.height) (hv : npMax (alphaList g) ≠ 0) :
    (analyze_metrics sq g).toOption.map Metrics.palette_size = some (paletteSizeA10 g) := by
  unfold analyze_metrics
  simp only [hm, ne_eq, not_true_eq_false, ite_false, if_false]
  rw [if_neg hv, if_neg (by omega)]
  simp only [Except.toOption, Option.map, paletteSizeA10, decide_eq_true_eq]
  split_ifs with hl
  · rfl
  · rw [Nat.not_lt, Nat.le_zero, List.length_eq_zero] at hl
    rw [hl]
    rfl

/-- C4 witness: the amended property evaluated on the 2x2 image. -/
theorem palette_alpha10_rgba_amended_witness :
    (2 ≤ imTwo.width ∧ 2 ≤ imTwo.height ∧ npMax (alphaList imTwo) ≠ 0) ∧
      (analyze_metrics sq0 imTwo).toOption.map Metrics.palette_size
        = some (paletteSizeA10 imTwo) :=
  ⟨⟨by decide, by decide, by decide⟩,
    palette_alpha10_rgba_amended sq0 imTwo rfl (by decide) (by decide) (by decide)⟩

/-- C5: for positive intensity on an RGBA image, liquid_smooth equals the
    downscale of the blurred supersampled image in which only the alpha
    channel has been passed through the piecewise remap of the
    specification (below 100 to 0, above 180 to 255, linear in between)
    while the RGB channels are kept exactly as blurred. -/
theorem liquid_smooth_alpha_remap (rf : Img → Nat → Nat → Img) (bf : Img → ℚ → Img)
    (g : Img) (t : ℚ) (ht : 0 < t) (hm : g.mode = PilMode.rgba) :
    liquid_smooth rf bf g t =
      rf (mergeRGBA (chanOfR (bf (rf g (g.width * 4) (g.height * 4)) (2 + t * 8)))
            (chanOfG (bf (rf g (g.width * 4) (g.height * 4)) (2 + t * 8)))
            (chanOfB (bf (rf g (g.width * 4) (g.height * 4)) (2 + t * 8)))
            (pointMap claimRemap (chanOfA (bf (rf g (g.width * 4) (g.height * 4)) (2 + t * 8)))))
        g.width g.height := by
  unfold liquid_smooth
  rw [if_neg (by simp [hm]; linarith), levels_eq_claim]

/-- C5 witness: the remap structure evaluated at intensity 1 on the 1x1
    opaque image with concrete resampling stand-ins. -/
theorem liquid_smooth_alpha_remap_witness :
    (0 : ℚ) < 1 ∧
      liquid_smooth rf0 bf0 imOpaque 1 =
        rf0 (mergeRGBA
              (chanOfR (bf0 (rf0 imOpaque (imOpaque.width * 4) (imOpaque.height * 4)) (2 + 1 * 8)))
              (chanOfG (bf0 (rf0 imOpaque (imOpaque.width * 4) (imOpaque.height * 4)) (2 + 1 * 8)))
              (chanOfB (bf0 (rf0 imOpaque (imOpaque.width * 4) (imOpaque.height * 4)) (2 + 1 * 8)))
              (pointMap claimRemap
                (chanOfA (bf0 (rf0 imOpaque (imOpaque.width * 4) (imOpaque.height * 4)) (2 + 1 * 8)))))
          imOpaque.width imOpaque.height :=
  ⟨by norm_num, liquid_smooth_alpha_remap rf0 bf0 imOpaque 1 (by norm_num) rfl⟩

/-- C6 counterexample: with width 1 and center alignment on the 3x3
    one-dot image, the specified masks expand(M, 1/2) = expand(M, 0) and
    choke(M, 0) make the stroke region empty, leaving the corner pixel
    transparent, while the code clamps the radius to 1 and paints the
    corner with stroke alpha 255. -/
theorem stroke_center_half_width_cex :
    ((applyStroke imDot ⟨1, 2, 3, 255⟩ 1 .center).pix 0 0).a = 255 ∧
      ((applyStrokeCenterClaimed imDot ⟨1, 2, 3, 255⟩ 1).pix 0 0).a = 0 := by
  constructor
  · rw [stroke_center_eq imDot ⟨1, 2, 3, 255⟩ 1 (by decide)]
    show (srcOverPx (imDot.pix 0 0) _).a = 255
    rw [srcOver_alpha255 _ _ (by decide)]
    decide
  · show (srcOverPx (imDot.pix 0 0) _).a = 0
    rw [srcOver_transparent _ _ (by decide)]
    decide

/-- C6 amended: for every positive width, center alignment computes the
    outer mask as expand(M, r) and the inner mask as choke(M, r) with
    r = max(1, width / 2) — half the width rounded down but at least one
    pixel — the stroke region being their clamped difference, composited
    over the image. -/
theorem stroke_center_radius_amended (g : Img) (color : RGBA) (w : Int)
    (hw : 0 < w) (hm : g.mode = PilMode.rgba) :
    applyStroke g color w .center =
      alphaCompositeImg g
        (putalpha (newRGBA g.width g.height color)
          (chopsSubtract (expand (chanOfA g) (max 1 (w.toNat / 2)))
            (choke (chanOfA g) (max 1 (w.toNat / 2))))) :=
  stroke_center_eq g color w (by simp [hm]; omega)

/-- C6 witness: the amended mask equation evaluated at width 1 on the 3x3
    one-dot image. -/
theorem stroke_center_radius_amended_witness :
    (0 : Int) < 1 ∧
      applyStroke imDot ⟨1, 2, 3, 255⟩ 1 .center =
        alphaCompositeImg imDot
          (putalpha (newRGBA imDot.width imDot.height ⟨1, 2, 3, 255⟩)
            (chopsSubtract (expand (chanOfA imDot) (max 1 ((1 : Int).toNat / 2)))
              (choke (chanOfA imDot) (max 1 ((1 : Int).toNat / 2))))) :=
  ⟨by decide, stroke_center_radius_amended imDot ⟨1, 2, 3, 255⟩ 1 (by decide) rfl⟩

/-- C7: with outside alignment and positive width, the stroke layer is
    composited behind the image, so every pixel whose input alpha is 255
    keeps its exact input RGBA value in the result. -/
theorem stroke_outside_preserves_opaque_pixels (g : Img) (color : RGBA) (w : Int)
    (x y : Nat) (hw : 0 < w) (hm : g.mode = PilMode.rgba)
    (ha : (g.pix x y).a = 255) :
    (applyStroke g color w .outside).pix x y = g.pix x y := by
  unfold applyStroke
  rw [if_neg (by simp [hm]; omega)]
  exact srcOver_alpha255 _ _ ha

/-- C7 witness: the opaque 1x1 image keeps its pixel under an outside
    stroke of width 2. -/
theorem stroke_outside_preserves_opaque_pixels_witness :
    (imOpaque.pix 0 0).a = 255 ∧
      (applyStroke imOpaque ⟨1, 2, 3, 255⟩ 2 .outside).pix 0 0 = imOpaque.pix 0 0 :=
  ⟨by decide,
    stroke_outside_preserves_opaque_pixels imOpaque ⟨1, 2, 3, 255⟩ 2 0 0 (by decide) rfl
      (by decide)⟩

/-- C8 counterexample: apply_stroke with width 0 returns the very input
    object — the heap is unchanged and the result reference is the input
    reference — so the no-op cases do not return a new image. -/
theorem transform_returns_input_object_cex :
    applyStrokeH heap0 0 ⟨0, 0, 0, 0⟩ 0 .outside = (heap0, 0) := by
  unfold applyStrokeH
  rw [if_pos (Or.inl (by decide))]

/-- C8 amended: none of the four transforms ever mutates an existing heap
    cell — after apply_stroke, liquid_smooth, audit_image or
    analyze_metrics the input object is byte-identical — and on their
    effective paths apply_stroke and liquid_smooth return a freshly
    allocated object, while on their no-op paths (non-positive width or
    intensity, or a non-RGBA input) they return the input object itself. -/
theorem transforms_no_mutation_amended (rf : Img → Nat → Nat → Img) (bf : Img → ℚ → Img)
    (sq : ℚ → ℚ) (h : Heap) (i : Nat) (c : RGBA) (w : Int) (al : StrokeAlignment) (t : ℚ)
    (hi : i < h.length) :
    ((applyStrokeH h i c w al).1)[i]? = h[i]? ∧
    ((liquidSmoothH rf bf h i t).1)[i]? = h[i]? ∧
    ((auditImageH h i).1)[i]? = h[i]? ∧
    ((analyzeMetricsH sq h i).1)[i]? = h[i]? ∧
    ((w ≤ 0 ∨ (getImg h i).mode ≠ PilMode.rgba) → applyStrokeH h i c w al = (h, i)) ∧
    (¬(w ≤ 0 ∨ (getImg h i).mode ≠ PilMode.rgba) → h.length ≤ (applyStrokeH h i c w al).2) ∧
    ((t ≤ 0 ∨ (getImg h i).mode ≠ PilMode.rgba) → liquidSmoothH rf bf h i t = (h, i)) ∧
    (¬(t ≤ 0 ∨ (getImg h i).mode ≠ PilMode.rgba) → h.length ≤ (liquidSmoothH rf bf h i t).2) :=
  ⟨strokeH_pres h i c w al hi, liquidH_pres rf bf h i t hi, auditH_pres h i hi,
    metricsH_pres sq h i hi,
    fun hc => by unfold applyStrokeH; rw [if_pos hc],
    fun hc => strokeH_fresh h i c w al hc,
    fun hc => by unfold liquidSmoothH; rw [if_pos hc],
    fun hc => liquidH_fresh rf bf h i t hc⟩

/-- C8 witness: heap preservation and freshness evaluated on the one-object
    heap with effective parameters. -/
theorem transforms_no_mutation_amended_witness :
    ((applyStrokeH heap0 0 ⟨0, 0, 0, 0⟩ 1 .outside).1)[0]? = heap0[0]? ∧
    ((liquidSmoothH rf0 bf0 heap0 0 1).1)[0]? = heap0[0]? ∧
    ((auditImageH heap0 0).1)[0]? = heap0[0]? ∧
    ((analyzeMetricsH sq0 heap0 0).1)[0]? = heap0[0]? ∧
    heap0.length ≤ (applyStrokeH heap0 0 ⟨0, 0, 0, 0⟩ 1 .outside).2 ∧
    heap0.length ≤ (liquidSmoothH rf0 bf0 heap0 0 1).2 :=
  ⟨(transforms_no_mutation_amended rf0 bf0 sq0 heap0 0 ⟨0, 0, 0, 0⟩ 1 .outside 1 (by decide)).1,
    (transforms_no_mutation_amended rf0 bf0 sq0 heap0 0 ⟨0, 0, 0, 0⟩ 1 .outside 1
      (by decide)).2.1,
    (transforms_no_mutation_amended rf0 bf0 sq0 heap0 0 ⟨0, 0, 0, 0⟩ 1 .outside 1
      (by decide)).2.2.1,
    (transforms_no_mutation_amended rf0 bf0 sq0 heap0 0 ⟨0, 0, 0, 0⟩ 1 .outside 1
      (by decide)).2.2.2.1,
    (transforms_no_mutation_amended rf0 bf0 sq0 heap0 0 ⟨0, 0, 0, 0⟩ 1 .outside 1
      (by decide)).2.2.2.2.2.1 (by decide),
    (transforms_no_mutation_amended rf0 bf0 sq0 heap0 0 ⟨0, 0, 0, 0⟩ 1 .outside 1
      (by decide)).2.2.2.2.2.2.2 (by decide)⟩

/-- C9: apply_stroke, for every color, width and alignment, and
    liquid_smooth, for every intensity, return an image of exactly the
    input dimensions, given the PIL resize contract. -/
theorem stroke_polish_dimension_invariant (rf : Img → Nat → Nat → Img)
    (bf : Img → ℚ → Img)
    (hrf : ∀ g a b, (rf g a b).width = a ∧ (rf g a b).height = b)
    (g : Img) (color : RGBA) (w : Int) (al : StrokeAlignment) (t : ℚ) :
    (applyStroke g color w al).width = g.width ∧
    (applyStroke g color w al).height = g.height ∧
    (liquid_smooth rf bf g t).width = g.width ∧
    (liquid_smooth rf bf g t).height = g.height := by
  refine ⟨?_, ?_, ?_, ?_⟩
  · by_cases hcond : (w ≤ 0 ∨ g.mode ≠ PilMode.rgba)
    · unfold applyStroke; rw [if_pos hcond]
    · unfold applyStroke; rw [if_neg hcond]; cases al <;> rfl
  · by_cases hcond : (w ≤ 0 ∨ g.mode ≠ PilMode.rgba)
    · unfold applyStroke; rw [if_pos hcond]
    · unfold applyStroke; rw [if_neg hcond]; cases al <;> rfl
  · by_cases hcond : (t ≤ 0 ∨ g.mode ≠ PilMode.rgba)
    · unfold liquid_smooth; rw [if_pos hcond]
    · unfold liquid_smooth; rw [if_neg hcond]; exact (hrf _ _ _).1
  · by_cases hcond : (t ≤ 0 ∨ g.mode ≠ PilMode.rgba)
    · unfold liquid_smooth; rw [if_pos hcond]
    · unfold liquid_smooth; rw [if_neg hcond]; exact (hrf _ _ _).2

/-- C9 witness: dimension preservation evaluated on the 3x3 one-dot image
    with width 2, center alignment and intensity one half. -/
theorem stroke_polish_dimension_invariant_witness :
    (applyStroke imDot ⟨0, 0, 0, 0⟩ 2 .center).width = imDot.width ∧
    (applyStroke imDot ⟨0, 0, 0, 0⟩ 2 .center).height = imDot.height ∧
    (liquid_smooth rf0 bf0 imDot (1/2)).width = imDot.width ∧
    (liquid_smooth rf0 bf0 imDot (1/2)).height = imDot.height :=
  stroke_polish_dimension_invariant rf0 bf0 (fun _ _ _ => ⟨rfl, rfl⟩) imDot ⟨0, 0, 0, 0⟩ 2
    .center (1/2)

/-- C10: resize_to_square with maintain_aspect returns an image of exactly
    size x size for every sharpen setting; without sharpening it is
    literally the resize of the input pasted at integer-floor offsets onto
    a transparent square canvas of side max(width, height); and
    generate_all_sizes maps every requested size to an image of exactly
    that square size. -/
theorem resize_square_dims (rf : Img → Nat → Nat → Img) (uf : Img → SharpenParams → Img)
    (hrf : ∀ g a b, (rf g a b).width = a ∧ (rf g a b).height = b)
    (huf : ∀ g sp, (uf g sp).width = g.width ∧ (uf g sp).height = g.height)
    (g : Img) (s : Nat) (_hs : 0 < s) (sp : Option SharpenParams)
    (proc : Img) (sizes : List Nat) :
    (resize_to_square rf uf g s true sp).width = s ∧
    (resize_to_square rf uf g s true sp).height = s ∧
    resize_to_square rf uf g s true none =
      rf (pasteAt (newRGBA (max g.width g.height) (max g.width g.height) ⟨0, 0, 0, 0⟩) g
        ((max g.width g.height - g.width) / 2) ((max g.width g.height - g.height) / 2)) s s ∧
    (generate_all_sizes rf uf (some proc) (some sizes)).all
      (fun p => decide (p.2.width = p.1 ∧ p.2.height = p.1)) = true := by
  refine ⟨(rts_dims rf uf hrf huf g s true sp).1, (rts_dims rf uf hrf huf g s true sp).2,
    rfl, ?_⟩
  rw [List.all_eq_true]
  intro p hp
  unfold generate_all_sizes at hp
  simp only [Option.getD] at hp
  obtain ⟨size, hsz, rfl⟩ := List.mem_map.mp hp
  rw [decide_eq_true_eq]
  exact rts_dims rf uf hrf huf proc size true _

/-- C10 witness: the square-output property evaluated at size 16 with the
    concrete resampling stand-ins. -/
theorem resize_square_dims_witness :
    (resize_to_square rf0 uf0 imDot 16 true none).width = 16 ∧
    (resize_to_square rf0 uf0 imDot 16 true none).height = 16 ∧
    resize_to_square rf0 uf0 imDot 16 true none =
      rf0 (pasteAt (newRGBA (max imDot.width imDot.height) (max imDot.width imDot.height)
          ⟨0, 0, 0, 0⟩) imDot
        ((max imDot.width imDot.height - imDot.width) / 2)
        ((max imDot.width imDot.height - imDot.height) / 2)) 16 16 ∧
    (generate_all_sizes rf0 uf0 (some imOpaque) (some [16, 100])).all
      (fun p => decide (p.2.width = p.1 ∧ p.2.height = p.1)) = true :=
  resize_square_dims rf0 uf0 (fun _ _ _ => ⟨rfl, rfl⟩) (fun _ _ => ⟨rfl, rfl⟩) imDot 16
    (by decide) none imOpaque [16, 100]
